import Mathlib

/-!
# Formal model of the Waifu Berry Miner (`src/B_m.py`, `src/B_m2.py`)

A shallow embedding of the repository's core logic:

* the response-text event extractor (`RE_BERRIES` / `RE_CRYSTALS` / `RE_WAIFU`
  and `extract_and_record`, B_m.py lines 43–45 and 89–110, B_m2.py lines
  35–37 and 78–99);
* the summary aggregator (the `summary` dict, initialised in
  `Miner.__init__`);
* the cooldown-aware scheduler tick (`Miner.start` loop body in B_m.py
  lines 179–196, identical to `Miner.run` in B_m2.py lines 163–180);
* the transport wrapper `RealClient.send` with its `try/except RPCError`;
* the `stop`/`start` lifecycle of B_m2's `Miner`.

Text is modelled as `List Char`; time as `ℚ` (seconds, Unix-epoch origin);
the Python `datetime.min` sentinel becomes the concrete rational
`datetime_min`.  Randomness, the event loop, the logger sink and the real
Telegram transport are external collaborators: their influence enters the
model as explicit function parameters (`dispatchEffect`, `dispatchClock`,
`dispatchLog`, `SendOutcome`).
-/

/-! ## Regular-expression matchers

The three patterns are compiled with `re.I`, so every literal comparison is
case-insensitive.  Each matcher below implements Python `re.search`
semantics for its specific pattern: positions are scanned left to right and
at each position the alternatives are tried in order (leftmost match wins,
alternative order breaks ties at the same position).

Digits are modelled as ASCII `0`–`9` (the `[0-9]+` class literally, and the
`\d+` class for the ASCII inputs this bot produces).
-/

/-- One pattern character matches one text character, case-insensitively
(the patterns are compiled with `re.I`). -/
def chMatch (p c : Char) : Bool := p.toLower = c.toLower

/-- Match a literal pattern fragment at the head of the text,
case-insensitively; returns the remaining text on success. -/
def matchLit : List Char → List Char → Option (List Char)
  | [], t => some t
  | _ :: _, [] => none
  | p :: ps, c :: cs => if chMatch p c then matchLit ps cs else none

/-- Greedily take the maximal run of digits at the head of the text. -/
def takeDigits : List Char → List Char × List Char
  | [] => ([], [])
  | c :: cs =>
    if c.isDigit then
      let p := takeDigits cs
      (c :: p.1, p.2)
    else ([], c :: cs)

/-- `(\d+)` / `([0-9]+)`: one or more digits.  Maximal munch is exactly
Python's greedy semantics here: in every context where these groups occur
the following pattern character is a non-digit (or the pattern ends), so
backtracking a greedy digit run can never help. -/
def matchDigits (t : List Char) : Option (List Char × List Char) :=
  let p := takeDigits t
  if p.1 = [] then none else some p

/-- An optional single character (`[s]?`, `:?`).  Consuming greedily without
backtracking is faithful: in `crystal[s]?:? (\d+)` the characters that can
follow a skipped optional (`:` or a space) are distinct from the optional
characters themselves, so skipping a present optional can never rescue a
failed match. -/
def optCh (p : Char) : List Char → List Char
  | [] => []
  | c :: cs => if chMatch p c then cs else c :: cs

/-- The three alternatives of
`RE_BERRIES = r'discovered (\d+) Berries|You gained (\d+) Berries|Berries: (\d+)'`
tried, in order, at one fixed text position.  Exactly one group is set in a
match, and it is a non-empty digit string, so the value returned is the
first non-empty group of the Python match object. -/
def berriesAt (t : List Char) : Option (List Char) :=
  (do
    let r ← matchLit "discovered ".data t
    let p ← matchDigits r
    let _ ← matchLit " Berries".data p.2
    pure p.1) <|>
  (do
    let r ← matchLit "You gained ".data t
    let p ← matchDigits r
    let _ ← matchLit " Berries".data p.2
    pure p.1) <|>
  (do
    let r ← matchLit "Berries: ".data t
    let p ← matchDigits r
    pure p.1)

/-- The two alternatives of
`RE_CRYSTALS = r'([0-9]+) Crystals|crystal[s]?:? (\d+)'`
tried, in order, at one fixed text position. -/
def crystalsAt (t : List Char) : Option (List Char) :=
  (do
    let p ← matchDigits t
    let _ ← matchLit " Crystals".data p.2
    pure p.1) <|>
  (do
    let r ← matchLit "crystal".data t
    let r4 ← matchLit " ".data (optCh ':' (optCh 's' r))
    let p ← matchDigits r4
    pure p.1)

/-- `(.+? Waifu)`: lazily consume one or more non-newline characters until
the literal `" Waifu"` follows; the capture includes the `" Waifu"` suffix
itself.  Nothing follows the group in either alternative, so the lazy
quantifier stops at the first possible point. -/
def lazyWaifu : List Char → Option (List Char)
  | [] => none
  | c :: cs =>
    if c = '\n' then none
    else if (matchLit " Waifu".data cs).isSome then some (c :: cs.take 6)
    else (lazyWaifu cs).map (fun g => c :: g)

/-- The two alternatives of
`RE_WAIFU = r'got (?:a |an )?(.+? Waifu)|You obtained (.+? Waifu)'`
tried, in order, at one fixed text position.  The optional non-capturing
group is tried greedily: `"a "` first, then `"an "`, then empty — exactly
the backtracking order of the Python engine. -/
def waifuAt (t : List Char) : Option (List Char) :=
  (do
    let r ← matchLit "got ".data t
    (do
      let r2 ← matchLit "a ".data r
      lazyWaifu r2) <|>
    (do
      let r2 ← matchLit "an ".data r
      lazyWaifu r2) <|>
    lazyWaifu r) <|>
  (do
    let r ← matchLit "You obtained ".data t
    lazyWaifu r)

/-- Python `re.search`: try the pattern at every position, left to right. -/
def reSearch (f : List Char → Option (List Char)) : List Char → Option (List Char)
  | [] => f []
  | c :: cs => f (c :: cs) <|> reSearch f cs

/-- `RE_BERRIES.search(text)`, collapsed to the first non-empty group of
the match (which is what `extract_and_record` consumes). -/
def RE_BERRIES.search (t : List Char) : Option (List Char) := reSearch berriesAt t

/-- `RE_CRYSTALS.search(text)`, collapsed to the first non-empty group. -/
def RE_CRYSTALS.search (t : List Char) : Option (List Char) := reSearch crystalsAt t

/-- `RE_WAIFU.search(text)`, collapsed to the first non-empty group. -/
def RE_WAIFU.search (t : List Char) : Option (List Char) := reSearch waifuAt t

/-! ## Data model: events and the summary

`Miner.__init__` (B_m.py line 162 / B_m2.py line 148) creates
`{'berries_total': 0, 'crystals_total': 0, 'waifus': [], 'events': []}`.
Event dicts carry a `time` field (the `ts()` wall-clock string) and the
source `text`; the wall-clock string is an input of the model. -/

/-- An entry of `summary['waifus']`. -/
structure WaifuEntry where
  time : String
  waifu : String
  text : String
deriving DecidableEq

/-- An entry of `summary['events']`: the three dict shapes appended by
`extract_and_record`, tagged by their `'type'` field. -/
inductive Event where
  | berries (time : String) (amount : Nat) (text : String)
  | crystals (time : String) (amount : Nat) (text : String)
  | waifu (time : String) (name : String) (text : String)
deriving DecidableEq

/-- The `summary` dict. -/
structure Summary where
  berries_total : Nat
  crystals_total : Nat
  waifus : List WaifuEntry
  events : List Event
deriving DecidableEq

/-- The summary a fresh `Miner` starts with (B_m.py line 162 / B_m2.py line
148). -/
def initialSummary : Summary := ⟨0, 0, [], []⟩

/-- Python `int()` on a captured digit string. -/
def pyInt (l : List Char) : Nat := l.foldl (fun a c => 10 * a + (c.toNat - 48)) 0

namespace B_m

/-- `extract_and_record(text, summary, logger)` from B_m.py lines 89–110.
`time` stands for the `ts()` wall-clock string; logger calls are pure
output and are omitted.  A successful `search` of any of the three
patterns has exactly one non-`None` group, and that group is a non-empty
string, so the `next((g for g in m.groups() if g), None)` selection and
the following truthiness guard collapse into the `some` case of the
searches above. -/
def extract_and_record (time text : String) (summary : Summary) : Summary :=
  let s1 :=
    match RE_BERRIES.search text.data with
    | some g =>
      { summary with
        berries_total := summary.berries_total + pyInt g
        events := summary.events ++ [Event.berries time (pyInt g) text] }
    | none => summary
  let s2 :=
    match RE_CRYSTALS.search text.data with
    | some g =>
      { s1 with
        crystals_total := s1.crystals_total + pyInt g
        events := s1.events ++ [Event.crystals time (pyInt g) text] }
    | none => s1
  match RE_WAIFU.search text.data with
  | some g =>
    { s2 with
      waifus := s2.waifus ++ [⟨time, g.asString, text⟩]
      events := s2.events ++ [Event.waifu time g.asString text] }
  | none => s2

/-- `DEFAULT_COMMANDS` of B_m.py (line 35). -/
def DEFAULT_COMMANDS : List String := ["/explore", "/dice", "/bowling", "/lever"]

/-- Folding `extract_and_record` over a sequence of `(ts(), text)` arrivals
— the aggregator's whole life over a session. -/
def runTexts (items : List (String × String)) (s : Summary) : Summary :=
  items.foldl (fun su it => extract_and_record it.1 it.2 su) s

end B_m

namespace B_m2

/-- `extract_and_record(text, summary, logger)` from B_m2.py lines 78–99:
the same three module-level patterns (B_m2.py lines 35–37 are
character-for-character the lines 43–45 of B_m.py) and the same body; the
files differ there only in one logger message. -/
def extract_and_record (time text : String) (summary : Summary) : Summary :=
  let s1 :=
    match RE_BERRIES.search text.data with
    | some g =>
      { summary with
        berries_total := summary.berries_total + pyInt g
        events := summary.events ++ [Event.berries time (pyInt g) text] }
    | none => summary
  let s2 :=
    match RE_CRYSTALS.search text.data with
    | some g =>
      { s1 with
        crystals_total := s1.crystals_total + pyInt g
        events := s1.events ++ [Event.crystals time (pyInt g) text] }
    | none => s1
  match RE_WAIFU.search text.data with
  | some g =>
    { s2 with
      waifus := s2.waifus ++ [⟨time, g.asString, text⟩]
      events := s2.events ++ [Event.waifu time g.asString text] }
  | none => s2

/-- `DEFAULT_COMMANDS` of B_m2.py (line 28). -/
def DEFAULT_COMMANDS : List String := ["/dice", "/bowling", "/lever", "/explore"]

end B_m2

/-! ## Measures on the event log, for the aggregation invariants -/

/-- The berry amount an event contributes to `berries_total`. -/
def berryAmount : Event → Nat
  | Event.berries _ a _ => a
  | _ => 0

/-- The crystal amount an event contributes to `crystals_total`. -/
def crystalAmount : Event → Nat
  | Event.crystals _ a _ => a
  | _ => 0

/-- Whether an event is a berries event. -/
def isBerriesEvent : Event → Bool
  | Event.berries _ _ _ => true
  | _ => false

/-- Whether an event is a crystals event. -/
def isCrystalsEvent : Event → Bool
  | Event.crystals _ _ _ => true
  | _ => false

/-- Whether an event is a waifu-acquisition event. -/
def isWaifuEvent : Event → Bool
  | Event.waifu _ _ _ => true
  | _ => false

/-- Sum of the amounts of all berries events in a log. -/
def sumBerries (es : List Event) : Nat := (es.map berryAmount).sum

/-- Sum of the amounts of all crystals events in a log. -/
def sumCrystals (es : List Event) : Nat := (es.map crystalAmount).sum

/-- Number of waifu events in a log. -/
def countWaifus (es : List Event) : Nat := es.countP isWaifuEvent

/-! ## Scheduler: the cooldown tick loop

The body of `while self.running:` in `Miner.start` (B_m.py lines 179–196)
is line-for-line the body of `Miner.run` (B_m2.py lines 163–180); one
model covers both.  A tick takes:

* `now` — the `datetime.now()` reading taken at the top of the tick
  (line 180 / 164);
* `dispatchClock cmd` — the fresh `datetime.now()` reading taken on
  line 192 / 176 after the dispatch of `cmd` completes (the sends
  `await`, so this reading can be later than `now`);
* `dispatchEffect cmd` — what the awaited dispatch does to the summary
  (`simulate_send` records a random berries event for `/explore`; a real
  send leaves the summary alone — responses arrive via the separate
  Telethon handler);
* `dispatchLog cmd` — the log lines produced by the dispatch (for a real
  send, the value of `RealClient.send`).
-/

/-- `COMMAND_COOLDOWN = 125.0` (B_m.py line 39 / B_m2.py line 32). -/
def COMMAND_COOLDOWN : ℚ := 125

/-- `ALMOST_READY_THRESHOLD = 2.0` (B_m.py line 40 / B_m2.py line 33). -/
def ALMOST_READY_THRESHOLD : ℚ := 2

/-- Python's `datetime.min` (0001-01-01 00:00:00) on a rational time axis
measured in seconds with the Unix epoch at 0: the sentinel meaning "never
sent" used to initialise `self.last_sent` (B_m.py line 163 / B_m2.py line
149). -/
def datetime_min : ℚ := -62135596800

/-- The mutable state of a `Miner` that the tick loop reads and writes:
the `self.running` flag, the `self.last_sent` map and the `self.summary`
aggregate. -/
structure MinerState where
  running : Bool
  last_sent : String → ℚ
  summary : Summary

/-- A fresh `Miner` after `__init__` (B_m.py lines 161–163 / B_m2.py lines
147–149): not running, empty summary, every command's last-sent stamp at
the `datetime.min` sentinel. -/
def Miner.initState : MinerState :=
  ⟨false, fun _ => datetime_min, initialSummary⟩

/-- Everything one pass of the `for cmd in self.commands:` loop produces:
the new miner state, the commands dispatched this tick, the commands for
which the "almost ready" notice was logged, and the transport log lines. -/
structure TickResult where
  state : MinerState
  dispatched : List String
  notices : List String
  logs : List String

/-- The outcome of one Telethon `send_message` call, decided by the remote
side. -/
inductive SendOutcome where
  | ok
  | rpcError
deriving DecidableEq

/-- Telethon `client.send_message` as a fallible operation: it either
returns or raises `RPCError`. -/
def send_message : SendOutcome → Except String Unit
  | SendOutcome.ok => Except.ok ()
  | SendOutcome.rpcError => Except.error "RPCError"

/-- `RealClient.send(command)` (B_m.py lines 136–144; identical in B_m2.py
lines 124–132): the `try/except RPCError` wrapper around the transport
call.  It always returns normally — an `RPCError` is converted into a log
line — so its type is a plain list of log lines, not an `Except`. -/
def RealClient.send (bot : Option String) (command : String)
    (outcome : SendOutcome) : List String :=
  match bot with
  | none => ["No bot configured; cannot send " ++ command]
  | some _ =>
    match send_message outcome with
    | Except.ok _ => ["sent " ++ command]
    | Except.error e => ["Error sending " ++ command ++ ": " ++ e]

/-- The `for cmd in self.commands:` loop of one tick (B_m.py lines
181–195 / B_m2.py lines 165–179).  Each command: honour the
`if not self.running: break` guard, compute `elapsed` and `remaining`,
dispatch and stamp `self.last_sent[cmd] = datetime.now()` when
`elapsed >= COMMAND_COOLDOWN`, otherwise log the notice when
`remaining < ALMOST_READY_THRESHOLD`. -/
def Miner.tickGo (dispatchEffect : String → Summary → Summary)
    (dispatchLog : String → List String)
    (now : ℚ) (dispatchClock : String → ℚ) :
    MinerState → List String → TickResult
  | s, [] => ⟨s, [], [], []⟩
  | s, cmd :: rest =>
    if s.running = false then ⟨s, [], [], []⟩
    else
      let elapsed := now - s.last_sent cmd
      let remaining := COMMAND_COOLDOWN - elapsed
      if COMMAND_COOLDOWN ≤ elapsed then
        let s' : MinerState :=
          { s with
            summary := dispatchEffect cmd s.summary
            last_sent := Function.update s.last_sent cmd (dispatchClock cmd) }
        let r := Miner.tickGo dispatchEffect dispatchLog now dispatchClock s' rest
        ⟨r.state, cmd :: r.dispatched, r.notices, dispatchLog cmd ++ r.logs⟩
      else if remaining < ALMOST_READY_THRESHOLD then
        let r := Miner.tickGo dispatchEffect dispatchLog now dispatchClock s rest
        ⟨r.state, r.dispatched, cmd :: r.notices, r.logs⟩
      else
        Miner.tickGo dispatchEffect dispatchLog now dispatchClock s rest

/-- One full tick over the configured command list. -/
def Miner.tick (dispatchEffect : String → Summary → Summary)
    (dispatchLog : String → List String)
    (now : ℚ) (dispatchClock : String → ℚ)
    (commands : List String) (s : MinerState) : TickResult :=
  Miner.tickGo dispatchEffect dispatchLog now dispatchClock s commands

/-- Whether the tick at time `now` finds command `c` due (the
`elapsed >= COMMAND_COOLDOWN` test against the pre-tick map). -/
def dueB (now : ℚ) (last : String → ℚ) (c : String) : Bool :=
  decide (COMMAND_COOLDOWN ≤ now - last c)

/-- Whether the tick at time `now` logs the "almost ready" notice for `c`
(not due, and `remaining < ALMOST_READY_THRESHOLD`). -/
def almostB (now : ℚ) (last : String → ℚ) (c : String) : Bool :=
  !dueB now last c &&
    decide (COMMAND_COOLDOWN - (now - last c) < ALMOST_READY_THRESHOLD)

namespace B_m2

/-- `Miner.stop` of B_m2.py (lines 194–197): clear the running flag if it
is set; nothing else is touched. -/
def Miner.stop (s : MinerState) : MinerState :=
  if s.running then { s with running := false } else s

/-- The `finally` block of `Miner.run` (B_m2.py lines 183–187), reached
when the loop exits after a `stop`: `_write_summary` persists a snapshot
of the summary; the in-memory state is not modified.  Returns the state
and the persisted snapshot. -/
def Miner.runCleanup (s : MinerState) : MinerState × Summary := (s, s.summary)

/-- `Miner.start` of B_m2.py (lines 189–192) together with the first line
of the freshly scheduled `Miner.run` (line 158, `self.running = True`): a
start on a stopped miner resumes ticking; a start on a running miner does
nothing. -/
def Miner.start (s : MinerState) : MinerState :=
  if s.running then s else { s with running := true }

end B_m2

/-! ## Theorems -/

/-- Master characterization of one tick: when the miner is running and the
configured command list has no duplicates (the spec's data-model
assumption; `self.last_sent` is a dict, so its keys are unique), a tick
dispatches exactly the due commands in configured order, stamps each
dispatched command with its own post-dispatch clock reading, folds the
dispatch effects over the summary in dispatch order, logs notices for
exactly the almost-ready commands, keeps running, and emits the dispatch
log lines in order. -/
theorem Miner.tickGo_spec (eff : String → Summary → Summary)
    (lg : String → List String) (now : ℚ) (dc : String → ℚ) :
    ∀ (cmds : List String) (s : MinerState), s.running = true → cmds.Nodup →
    Miner.tickGo eff lg now dc s cmds =
      ⟨⟨true,
        fun c => if c ∈ cmds ∧ dueB now s.last_sent c then dc c else s.last_sent c,
        (cmds.filter (dueB now s.last_sent)).foldl (fun su c => eff c su) s.summary⟩,
      cmds.filter (dueB now s.last_sent),
      cmds.filter (almostB now s.last_sent),
      (cmds.filter (dueB now s.last_sent)).flatMap lg⟩ := by
  intro cmds
  induction cmds with
  | nil =>
    intro s hrun _
    obtain ⟨r, ls, su⟩ := s
    simp at hrun
    subst hrun
    simp [Miner.tickGo]
  | cons cmd rest ih =>
    intro s hrun hnd
    have hcm : cmd ∉ rest := (List.nodup_cons.mp hnd).1
    have hndr : rest.Nodup := (List.nodup_cons.mp hnd).2
    by_cases hdue : COMMAND_COOLDOWN ≤ now - s.last_sent cmd
    · have hdb : dueB now s.last_sent cmd = true := by simp [dueB, hdue]
      have hab : almostB now s.last_sent cmd = false := by simp [almostB, hdb]
      have hih := ih
        { s with
          summary := eff cmd s.summary
          last_sent := Function.update s.last_sent cmd (dc cmd) } hrun hndr
      rw [hrun] at hih
      have hfd : rest.filter (dueB now (Function.update s.last_sent cmd (dc cmd)))
          = rest.filter (dueB now s.last_sent) := by
        apply List.filter_congr
        intro c hc
        have hne : c ≠ cmd := fun h => hcm (h ▸ hc)
        simp [dueB, Function.update_noteq hne]
      have hfa : rest.filter (almostB now (Function.update s.last_sent cmd (dc cmd)))
          = rest.filter (almostB now s.last_sent) := by
        apply List.filter_congr
        intro c hc
        have hne : c ≠ cmd := fun h => hcm (h ▸ hc)
        simp [almostB, dueB, Function.update_noteq hne]
      have hfun :
          (fun c => if c ∈ rest ∧ dueB now (Function.update s.last_sent cmd (dc cmd)) c
              then dc c else Function.update s.last_sent cmd (dc cmd) c)
          = fun c => if c ∈ cmd :: rest ∧ dueB now s.last_sent c
              then dc c else s.last_sent c := by
        funext c
        by_cases hc : c = cmd
        · subst hc
          simp [Function.update_same, hcm, hdb]
        · simp [Function.update_noteq hc, List.mem_cons, hc, dueB]
      simp [Miner.tickGo, hrun, hdue, hih, hfd, hfa, hfun, List.filter_cons, hdb, hab,
        List.flatMap_cons]
    · have hdb : dueB now s.last_sent cmd = false := by simp [dueB, hdue]
      have hih := ih s hrun hndr
      have hfun :
          (fun c => if c ∈ rest ∧ dueB now s.last_sent c then dc c else s.last_sent c)
          = fun c => if c ∈ cmd :: rest ∧ dueB now s.last_sent c
              then dc c else s.last_sent c := by
        funext c
        by_cases hc : c = cmd
        · subst hc
          simp [hcm, hdb]
        · simp [List.mem_cons, hc]
      by_cases halm : COMMAND_COOLDOWN - (now - s.last_sent cmd) < ALMOST_READY_THRESHOLD
      · have hab : almostB now s.last_sent cmd = true := by
          simp [almostB, dueB, hdue, halm]
        simp [Miner.tickGo, hrun, hdue, halm, hih, hfun, List.filter_cons, hdb, hab]
      · have hab : almostB now s.last_sent cmd = false := by
          simp [almostB, dueB, hdue, halm]
        simp [Miner.tickGo, hrun, hdue, halm, hih, hfun, List.filter_cons, hdb, hab]

/-- Claim C1 (amended): for every configured command `c` and every tick at time
`now` while running, the scheduler dispatches `c` iff
`now - lastSent[c] ≥ 125`; immediately after a dispatch, `lastSent[c]`
equals the fresh `datetime.now()` reading taken when the dispatch
completed (`dispatchClock c`) — not in general the tick's `now`. -/
theorem C1_dispatch_iff_stamp (eff : String → Summary → Summary)
    (lg : String → List String) (now : ℚ) (dc : String → ℚ)
    (cmds : List String) (s : MinerState) (c : String)
    (hrun : s.running = true) (hnd : cmds.Nodup) (hc : c ∈ cmds) :
    (c ∈ (Miner.tick eff lg now dc cmds s).dispatched ↔
      COMMAND_COOLDOWN ≤ now - s.last_sent c) ∧
    (COMMAND_COOLDOWN ≤ now - s.last_sent c →
      (Miner.tick eff lg now dc cmds s).state.last_sent c = dc c) := by
  rw [Miner.tick, Miner.tickGo_spec eff lg now dc cmds s hrun hnd]
  constructor
  · simp [List.mem_filter, hc, dueB]
  · intro h
    simp [hc, dueB, h]

theorem C1_dispatch_iff_stamp_witness :
    ("/explore" ∈ (Miner.tick (fun _ su => su) (fun _ => []) 200 (fun _ => 200)
        ["/explore"] ⟨true, fun _ => 0, initialSummary⟩).dispatched ↔
      COMMAND_COOLDOWN ≤ 200 - (⟨true, fun _ => 0, initialSummary⟩ :
        MinerState).last_sent "/explore") ∧
    (COMMAND_COOLDOWN ≤ 200 - (⟨true, fun _ => 0, initialSummary⟩ :
        MinerState).last_sent "/explore" →
      (Miner.tick (fun _ su => su) (fun _ => []) 200 (fun _ => 200)
        ["/explore"] ⟨true, fun _ => 0, initialSummary⟩).state.last_sent "/explore" = 200) :=
  C1_dispatch_iff_stamp (fun _ su => su) (fun _ => []) 200 (fun _ => 200)
    ["/explore"] ⟨true, fun _ => 0, initialSummary⟩ "/explore" rfl (by decide) (by decide)

/-- Claim C1 as literally stated is false: here a command is dispatched on the
tick at `now = 200`, the dispatch completes when the clock reads `201`
(the sends `await`, so time passes), and afterwards `lastSent` holds
`201`, not the tick's `now = 200`. -/
theorem C1_counterexample :
    "/explore" ∈ (Miner.tick (fun _ su => su) (fun _ => []) 200 (fun _ => 201)
        ["/explore"] ⟨true, fun _ => 0, initialSummary⟩).dispatched ∧
    ¬ (Miner.tick (fun _ su => su) (fun _ => []) 200 (fun _ => 201)
        ["/explore"] ⟨true, fun _ => 0, initialSummary⟩).state.last_sent "/explore" = 200 := by
  have hdb : dueB 200 (fun _ => (0 : ℚ)) "/explore" = true := by
    norm_num [dueB, COMMAND_COOLDOWN]
  have h := Miner.tickGo_spec (fun _ su => su) (fun _ => []) 200 (fun _ => 201)
    ["/explore"] ⟨true, fun _ => 0, initialSummary⟩ rfl (by simp)
  rw [Miner.tick, h]
  refine ⟨?_, ?_⟩
  · simp [hdb]
  · simp [hdb]

/-- Claim C2 (amended): the "almost ready" notice for a configured command fires
iff `0 < remaining < 2` (at `remaining = 0` the command is dispatched
instead, since `elapsed >= COMMAND_COOLDOWN` holds there), and a tick that
dispatches nothing — in particular any tick that only emits notices —
leaves `lastSent` and the summary unchanged. -/
theorem C2_notice_iff_and_frame (eff : String → Summary → Summary)
    (lg : String → List String) (now : ℚ) (dc : String → ℚ)
    (cmds : List String) (s : MinerState) (c : String)
    (hrun : s.running = true) (hnd : cmds.Nodup) (hc : c ∈ cmds) :
    (c ∈ (Miner.tick eff lg now dc cmds s).notices ↔
      (0 < COMMAND_COOLDOWN - (now - s.last_sent c) ∧
        COMMAND_COOLDOWN - (now - s.last_sent c) < ALMOST_READY_THRESHOLD)) ∧
    ((Miner.tick eff lg now dc cmds s).dispatched = [] →
      (Miner.tick eff lg now dc cmds s).state.last_sent = s.last_sent ∧
      (Miner.tick eff lg now dc cmds s).state.summary = s.summary) := by
  rw [Miner.tick, Miner.tickGo_spec eff lg now dc cmds s hrun hnd]
  constructor
  · simp only [List.mem_filter, hc, true_and, almostB, dueB, Bool.and_eq_true,
      Bool.not_eq_true', decide_eq_false_iff_not, decide_eq_true_eq, not_le, sub_pos]
  · intro hnil
    simp only at hnil
    have hnone : ∀ a ∈ cmds, ¬ dueB now s.last_sent a = true := by
      intro a ha
      exact List.filter_eq_nil_iff.mp hnil a ha
    constructor
    · funext a
      by_cases haz : a ∈ cmds
      · simp [hnone a haz]
      · simp [haz]
    · have : cmds.filter (dueB now s.last_sent) = [] := hnil
      simp [this]

theorem C2_notice_iff_and_frame_witness :
    ("/dice" ∈ (Miner.tick (fun _ su => su) (fun _ => []) 124 (fun _ => 124)
        ["/dice"] ⟨true, fun _ => 0, initialSummary⟩).notices ↔
      (0 < COMMAND_COOLDOWN - (124 - (⟨true, fun _ => 0, initialSummary⟩ :
          MinerState).last_sent "/dice") ∧
        COMMAND_COOLDOWN - (124 - (⟨true, fun _ => 0, initialSummary⟩ :
          MinerState).last_sent "/dice") < ALMOST_READY_THRESHOLD)) ∧
    ((Miner.tick (fun _ su => su) (fun _ => []) 124 (fun _ => 124)
        ["/dice"] ⟨true, fun _ => 0, initialSummary⟩).dispatched = [] →
      (Miner.tick (fun _ su => su) (fun _ => []) 124 (fun _ => 124)
        ["/dice"] ⟨true, fun _ => 0, initialSummary⟩).state.last_sent = (fun _ => 0) ∧
      (Miner.tick (fun _ su => su) (fun _ => []) 124 (fun _ => 124)
        ["/dice"] ⟨true, fun _ => 0, initialSummary⟩).state.summary = initialSummary) :=
  C2_notice_iff_and_frame (fun _ su => su) (fun _ => []) 124 (fun _ => 124)
    ["/dice"] ⟨true, fun _ => 0, initialSummary⟩ "/dice" rfl (by decide) (by decide)

/-- Claim C2 as literally stated is false at the boundary `remaining = 0`: with
`lastSent = 0` and a tick at `now = 125` the remaining cooldown is `0`, so
the claimed condition `0 ≤ remaining < 2` holds, yet no notice is emitted
(the command is dispatched instead). -/
theorem C2_counterexample :
    (0 ≤ COMMAND_COOLDOWN - (125 - (0 : ℚ)) ∧
      COMMAND_COOLDOWN - (125 - (0 : ℚ)) < ALMOST_READY_THRESHOLD) ∧
    "/explore" ∉ (Miner.tick (fun _ su => su) (fun _ => []) 125 (fun _ => 125)
        ["/explore"] ⟨true, fun _ => 0, initialSummary⟩).notices ∧
    "/explore" ∈ (Miner.tick (fun _ su => su) (fun _ => []) 125 (fun _ => 125)
        ["/explore"] ⟨true, fun _ => 0, initialSummary⟩).dispatched := by
  have hdb : dueB 125 (fun _ => (0 : ℚ)) "/explore" = true := by
    norm_num [dueB, COMMAND_COOLDOWN]
  have h := Miner.tickGo_spec (fun _ su => su) (fun _ => []) 125 (fun _ => 125)
    ["/explore"] ⟨true, fun _ => 0, initialSummary⟩ rfl (by simp)
  refine ⟨⟨?_, ?_⟩, ?_, ?_⟩
  · norm_num [COMMAND_COOLDOWN]
  · norm_num [COMMAND_COOLDOWN, ALMOST_READY_THRESHOLD]
  · rw [Miner.tick, h]
    simp [almostB, hdb]
  · rw [Miner.tick, h]
    simp [hdb]

/-- Claim C6: when a dispatch of a due command `c` is attempted in real mode and
the transport send fails with `RPCError`, `lastSent[c]` is still set to
the dispatch-time clock reading (the cooldown window is consumed), the
miner is still running after the tick (the `try/except RPCError` inside
`RealClient.send` converts the failure into a log line, so nothing
escapes into the tick loop), and the failure is logged. -/
theorem C6_send_failure_consumes_cooldown (bot : String)
    (outcome : String → SendOutcome) (now : ℚ) (dc : String → ℚ)
    (cmds : List String) (s : MinerState) (c : String)
    (hrun : s.running = true) (hnd : cmds.Nodup) (hc : c ∈ cmds)
    (hdue : COMMAND_COOLDOWN ≤ now - s.last_sent c)
    (hfail : outcome c = SendOutcome.rpcError) :
    (Miner.tick (fun _ su => su)
        (fun cm => RealClient.send (some bot) cm (outcome cm))
        now dc cmds s).state.last_sent c = dc c ∧
    (Miner.tick (fun _ su => su)
        (fun cm => RealClient.send (some bot) cm (outcome cm))
        now dc cmds s).state.running = true ∧
    ("Error sending " ++ c ++ ": RPCError") ∈
      (Miner.tick (fun _ su => su)
        (fun cm => RealClient.send (some bot) cm (outcome cm))
        now dc cmds s).logs := by
  rw [Miner.tick, Miner.tickGo_spec _ _ now dc cmds s hrun hnd]
  refine ⟨?_, rfl, ?_⟩
  · simp [hc, dueB, hdue]
  · have hcf : c ∈ cmds.filter (dueB now s.last_sent) := by
      simp [List.mem_filter, hc, dueB, hdue]
    refine List.mem_flatMap.mpr ⟨c, hcf, ?_⟩
    simp only [RealClient.send, send_message, hfail, List.mem_singleton]
    have hassoc : ∀ x : String, (x ++ ": ") ++ "RPCError" = x ++ ": RPCError" := by
      intro x
      rw [String.append_assoc]
      rfl
    exact (hassoc ("Error sending " ++ c)).symm

theorem C6_send_failure_consumes_cooldown_witness :
    (Miner.tick (fun _ su => su)
        (fun cm => RealClient.send (some "@YamatoAcn_bot") cm
          ((fun _ => SendOutcome.rpcError) cm))
        200 (fun _ => 200) ["/dice"] ⟨true, fun _ => 0, initialSummary⟩).state.last_sent
        "/dice" = 200 ∧
    (Miner.tick (fun _ su => su)
        (fun cm => RealClient.send (some "@YamatoAcn_bot") cm
          ((fun _ => SendOutcome.rpcError) cm))
        200 (fun _ => 200) ["/dice"] ⟨true, fun _ => 0, initialSummary⟩).state.running
        = true ∧
    ("Error sending " ++ "/dice" ++ ": RPCError") ∈
      (Miner.tick (fun _ su => su)
        (fun cm => RealClient.send (some "@YamatoAcn_bot") cm
          ((fun _ => SendOutcome.rpcError) cm))
        200 (fun _ => 200) ["/dice"] ⟨true, fun _ => 0, initialSummary⟩).logs :=
  C6_send_failure_consumes_cooldown "@YamatoAcn_bot" (fun _ => SendOutcome.rpcError)
    200 (fun _ => 200) ["/dice"] ⟨true, fun _ => 0, initialSummary⟩ "/dice"
    rfl (by simp) (by simp) (by norm_num [COMMAND_COOLDOWN]) rfl

/-- Claim C7: from the initial `CooldownState` (every command at the
`datetime.min` sentinel), the first tick — here at clock reading 0, with
the dispatches completing at the same reading — dispatches every
configured command exactly once (the dispatched list is the configured
list itself), and a re-tick one time unit later dispatches nothing and
emits no notice (remaining is 124 for cooldown 125, threshold 2). -/
theorem C7_cold_start_then_retick (eff eff2 : String → Summary → Summary)
    (lg lg2 : String → List String) (dc2 : String → ℚ)
    (cmds : List String) (hnd : cmds.Nodup) :
    (Miner.tick eff lg 0 (fun _ => 0) cmds
        { Miner.initState with running := true }).dispatched = cmds ∧
    (Miner.tick eff2 lg2 1 dc2 cmds
        (Miner.tick eff lg 0 (fun _ => 0) cmds
          { Miner.initState with running := true }).state).dispatched = [] ∧
    (Miner.tick eff2 lg2 1 dc2 cmds
        (Miner.tick eff lg 0 (fun _ => 0) cmds
          { Miner.initState with running := true }).state).notices = [] := by
  have h1 := Miner.tickGo_spec eff lg 0 (fun _ => 0) cmds
    { Miner.initState with running := true } rfl hnd
  have hdueAll : ∀ c ∈ cmds,
      dueB 0 ({ Miner.initState with running := true } : MinerState).last_sent c = true := by
    intro c _
    norm_num [dueB, COMMAND_COOLDOWN, Miner.initState, datetime_min]
  have hd1 : (Miner.tick eff lg 0 (fun _ => 0) cmds
      { Miner.initState with running := true }).dispatched = cmds := by
    rw [Miner.tick, h1]
    exact List.filter_eq_self.mpr hdueAll
  have hrun1 : (Miner.tick eff lg 0 (fun _ => 0) cmds
      { Miner.initState with running := true }).state.running = true := by
    rw [Miner.tick, h1]
  have hls : (Miner.tick eff lg 0 (fun _ => 0) cmds
      { Miner.initState with running := true }).state.last_sent
      = fun c => if c ∈ cmds then (0 : ℚ) else datetime_min := by
    rw [Miner.tick, h1]
    funext c
    by_cases hc : c ∈ cmds
    · simp [hc, hdueAll c hc]
    · simp [hc, Miner.initState]
  have h2 := Miner.tickGo_spec eff2 lg2 1 dc2 cmds
    (Miner.tick eff lg 0 (fun _ => 0) cmds { Miner.initState with running := true }).state
    hrun1 hnd
  refine ⟨hd1, ?_, ?_⟩
  · rw [Miner.tick, h2]
    refine List.filter_eq_nil_iff.mpr ?_
    intro a ha
    rw [hls]
    norm_num [dueB, ha, COMMAND_COOLDOWN]
  · rw [Miner.tick, h2]
    refine List.filter_eq_nil_iff.mpr ?_
    intro a ha
    rw [hls]
    norm_num [almostB, dueB, ha, COMMAND_COOLDOWN, ALMOST_READY_THRESHOLD]

theorem C7_cold_start_then_retick_witness :
    (Miner.tick (fun _ su => su) (fun _ => []) 0 (fun _ => 0) B_m.DEFAULT_COMMANDS
        { Miner.initState with running := true }).dispatched = B_m.DEFAULT_COMMANDS ∧
    (Miner.tick (fun _ su => su) (fun _ => []) 1 (fun _ => 1) B_m.DEFAULT_COMMANDS
        (Miner.tick (fun _ su => su) (fun _ => []) 0 (fun _ => 0) B_m.DEFAULT_COMMANDS
          { Miner.initState with running := true }).state).dispatched = [] ∧
    (Miner.tick (fun _ su => su) (fun _ => []) 1 (fun _ => 1) B_m.DEFAULT_COMMANDS
        (Miner.tick (fun _ su => su) (fun _ => []) 0 (fun _ => 0) B_m.DEFAULT_COMMANDS
          { Miner.initState with running := true }).state).notices = [] :=
  C7_cold_start_then_retick (fun _ su => su) (fun _ su => su) (fun _ => []) (fun _ => [])
    (fun _ => 1) B_m.DEFAULT_COMMANDS (by simp [B_m.DEFAULT_COMMANDS])

/-- Claim C8: on the same B_m2 `Miner` object, `stop()` (which lets the `run`
loop exit through its `finally` block) followed by `start()` resumes
ticking with the summary — totals, waifu list and event log — and the
cooldown map exactly as they were; nothing in the stop/start transition
resets them. -/
theorem C8_stop_start_preserves_summary (s : MinerState) :
    (B_m2.Miner.start (B_m2.Miner.runCleanup (B_m2.Miner.stop s)).1).summary = s.summary ∧
    (B_m2.Miner.start (B_m2.Miner.runCleanup
        (B_m2.Miner.stop s)).1).summary.berries_total = s.summary.berries_total ∧
    (B_m2.Miner.start (B_m2.Miner.runCleanup
        (B_m2.Miner.stop s)).1).summary.crystals_total = s.summary.crystals_total ∧
    (B_m2.Miner.start (B_m2.Miner.runCleanup
        (B_m2.Miner.stop s)).1).summary.waifus = s.summary.waifus ∧
    (B_m2.Miner.start (B_m2.Miner.runCleanup
        (B_m2.Miner.stop s)).1).summary.events = s.summary.events ∧
    (B_m2.Miner.start (B_m2.Miner.runCleanup
        (B_m2.Miner.stop s)).1).last_sent = s.last_sent ∧
    (B_m2.Miner.start (B_m2.Miner.runCleanup (B_m2.Miner.stop s)).1).running = true := by
  by_cases h : s.running <;>
    simp [B_m2.Miner.stop, B_m2.Miner.start, B_m2.Miner.runCleanup, h]

/-! ### Extractor lemmas -/

/-- The digit run taken by `takeDigits` consists of digits. -/
theorem takeDigits_all (t : List Char) : (takeDigits t).1.all Char.isDigit = true := by
  induction t with
  | nil => simp [takeDigits]
  | cons c cs ih =>
    by_cases h : c.isDigit
    · simp [takeDigits, h, ih]
    · simp [takeDigits, h]

/-- A successful `matchDigits` capture is a non-empty digit string — the
reason the `int()` calls in `extract_and_record` can never raise. -/
theorem matchDigits_digits (t : List Char) (p : List Char × List Char)
    (h : matchDigits t = some p) : p.1 ≠ [] ∧ p.1.all Char.isDigit = true := by
  unfold matchDigits at h
  by_cases h0 : (takeDigits t).1 = []
  · simp [h0] at h
  · simp only [h0, if_false] at h
    cases h
    exact ⟨h0, takeDigits_all t⟩

/-- Any group captured by a `RE_BERRIES` alternative is a non-empty digit
string. -/
theorem berriesAt_digits (t g : List Char) (h : berriesAt t = some g) :
    g ≠ [] ∧ g.all Char.isDigit = true := by
  unfold berriesAt at h
  rw [Option.orElse_eq_some] at h
  rcases h with h | ⟨-, h⟩
  · cases hm : matchLit "discovered ".data t with
    | none => rw [hm] at h; simp at h
    | some r =>
      rw [hm] at h
      simp only [Option.bind_eq_bind, Option.some_bind] at h
      cases hd : matchDigits r with
      | none => rw [hd] at h; simp at h
      | some p =>
        rw [hd] at h
        simp only [Option.bind_eq_bind, Option.some_bind] at h
        cases hm2 : matchLit " Berries".data p.2 with
        | none => rw [hm2] at h; simp at h
        | some r2 =>
          rw [hm2] at h
          simp only [Option.bind_eq_bind, Option.some_bind, Option.pure_def,
            Option.some.injEq] at h
          subst h
          exact matchDigits_digits r p hd
  · rw [Option.orElse_eq_some] at h
    rcases h with h | ⟨-, h⟩
    · cases hm : matchLit "You gained ".data t with
      | none => rw [hm] at h; simp at h
      | some r =>
        rw [hm] at h
        simp only [Option.bind_eq_bind, Option.some_bind] at h
        cases hd : matchDigits r with
        | none => rw [hd] at h; simp at h
        | some p =>
          rw [hd] at h
          simp only [Option.bind_eq_bind, Option.some_bind] at h
          cases hm2 : matchLit " Berries".data p.2 with
          | none => rw [hm2] at h; simp at h
          | some r2 =>
            rw [hm2] at h
            simp only [Option.bind_eq_bind, Option.some_bind, Option.pure_def,
              Option.some.injEq] at h
            subst h
            exact matchDigits_digits r p hd
    · cases hm : matchLit "Berries: ".data t with
      | none => rw [hm] at h; simp at h
      | some r =>
        rw [hm] at h
        simp only [Option.bind_eq_bind, Option.some_bind] at h
        cases hd : matchDigits r with
        | none => rw [hd] at h; simp at h
        | some p =>
          rw [hd] at h
          simp only [Option.bind_eq_bind, Option.some_bind, Option.pure_def,
            Option.some.injEq] at h
          subst h
          exact matchDigits_digits r p hd

/-- Any group captured by a `RE_CRYSTALS` alternative is a non-empty digit
string. -/
theorem crystalsAt_digits (t g : List Char) (h : crystalsAt t = some g) :
    g ≠ [] ∧ g.all Char.isDigit = true := by
  unfold crystalsAt at h
  rw [Option.orElse_eq_some] at h
  rcases h with h | ⟨-, h⟩
  · cases hd : matchDigits t with
    | none => rw [hd] at h; simp at h
    | some p =>
      rw [hd] at h
      simp only [Option.bind_eq_bind, Option.some_bind] at h
      cases hm2 : matchLit " Crystals".data p.2 with
      | none => rw [hm2] at h; simp at h
      | some r2 =>
        rw [hm2] at h
        simp only [Option.bind_eq_bind, Option.some_bind, Option.pure_def,
          Option.some.injEq] at h
        subst h
        exact matchDigits_digits t p hd
  · cases hm : matchLit "crystal".data t with
    | none => rw [hm] at h; simp at h
    | some r =>
      rw [hm] at h
      simp only [Option.bind_eq_bind, Option.some_bind] at h
      cases hm2 : matchLit " ".data (optCh ':' (optCh 's' r)) with
      | none => rw [hm2] at h; simp at h
      | some r4 =>
        rw [hm2] at h
        simp only [Option.bind_eq_bind, Option.some_bind] at h
        cases hd : matchDigits r4 with
        | none => rw [hd] at h; simp at h
        | some p =>
          rw [hd] at h
          simp only [Option.bind_eq_bind, Option.some_bind, Option.pure_def,
            Option.some.injEq] at h
          subst h
          exact matchDigits_digits r4 p hd

/-- A property of all captures of the per-position matcher lifts through
the position scan of `re.search`. -/
theorem reSearch_digits (f : List Char → Option (List Char))
    (hf : ∀ u g, f u = some g → g ≠ [] ∧ g.all Char.isDigit = true) :
    ∀ t g, reSearch f t = some g → g ≠ [] ∧ g.all Char.isDigit = true := by
  intro t
  induction t with
  | nil =>
    intro g h
    exact hf [] g h
  | cons c cs ih =>
    intro g h
    rw [reSearch, Option.orElse_eq_some] at h
    rcases h with h | ⟨-, h⟩
    · exact hf _ g h
    · exact ih g h

/-- One `extract_and_record` call appends at most one berries event, then
at most one crystals event, then at most one waifu event, in that fixed
order, leaving the previous log as a prefix. -/
theorem extract_and_record_shape (time text : String) (s : Summary) :
    ∃ lb lc lw : List Event,
      (B_m.extract_and_record time text s).events = s.events ++ (lb ++ lc ++ lw) ∧
      lb.length ≤ 1 ∧ lc.length ≤ 1 ∧ lw.length ≤ 1 ∧
      (∀ e ∈ lb, isBerriesEvent e = true) ∧
      (∀ e ∈ lc, isCrystalsEvent e = true) ∧
      (∀ e ∈ lw, isWaifuEvent e = true) := by
  unfold B_m.extract_and_record
  cases hb : RE_BERRIES.search text.data <;>
    cases hc : RE_CRYSTALS.search text.data <;>
      cases hw : RE_WAIFU.search text.data
  case none.none.none =>
    exact ⟨[], [], [], by simp, by simp, by simp, by simp, by simp, by simp, by simp⟩
  case none.none.some gw =>
    exact ⟨[], [], [Event.waifu time gw.asString text], by simp, by simp, by simp,
      by simp, by simp, by simp, by simp [isWaifuEvent]⟩
  case none.some.none gc =>
    exact ⟨[], [Event.crystals time (pyInt gc) text], [], by simp, by simp, by simp,
      by simp, by simp, by simp [isCrystalsEvent], by simp⟩
  case none.some.some gc gw =>
    exact ⟨[], [Event.crystals time (pyInt gc) text], [Event.waifu time gw.asString text],
      by simp, by simp, by simp, by simp, by simp, by simp [isCrystalsEvent],
      by simp [isWaifuEvent]⟩
  case some.none.none gb =>
    exact ⟨[Event.berries time (pyInt gb) text], [], [], by simp, by simp, by simp,
      by simp, by simp [isBerriesEvent], by simp, by simp⟩
  case some.none.some gb gw =>
    exact ⟨[Event.berries time (pyInt gb) text], [], [Event.waifu time gw.asString text],
      by simp, by simp, by simp, by simp, by simp [isBerriesEvent], by simp,
      by simp [isWaifuEvent]⟩
  case some.some.none gb gc =>
    exact ⟨[Event.berries time (pyInt gb) text], [Event.crystals time (pyInt gc) text], [],
      by simp, by simp, by simp, by simp, by simp [isBerriesEvent],
      by simp [isCrystalsEvent], by simp⟩
  case some.some.some gb gc gw =>
    exact ⟨[Event.berries time (pyInt gb) text], [Event.crystals time (pyInt gc) text],
      [Event.waifu time gw.asString text], by simp, by simp, by simp, by simp,
      by simp [isBerriesEvent], by simp [isCrystalsEvent], by simp [isWaifuEvent]⟩

/-- `extract_and_record` preserves the aggregation invariant: totals equal
the sums over the event log, and the waifu list length equals the waifu
event count. -/
theorem extract_and_record_inv (time text : String) (s : Summary)
    (h1 : s.berries_total = sumBerries s.events)
    (h2 : s.crystals_total = sumCrystals s.events)
    (h3 : s.waifus.length = countWaifus s.events) :
    (B_m.extract_and_record time text s).berries_total
        = sumBerries (B_m.extract_and_record time text s).events ∧
    (B_m.extract_and_record time text s).crystals_total
        = sumCrystals (B_m.extract_and_record time text s).events ∧
    (B_m.extract_and_record time text s).waifus.length
        = countWaifus (B_m.extract_and_record time text s).events := by
  unfold B_m.extract_and_record
  cases hb : RE_BERRIES.search text.data <;>
    cases hc : RE_CRYSTALS.search text.data <;>
      cases hw : RE_WAIFU.search text.data <;>
    simp [sumBerries, sumCrystals, countWaifus, berryAmount, crystalAmount,
      isWaifuEvent, isBerriesEvent, isCrystalsEvent, h1, h2, h3,
      List.countP_append, List.countP_cons]

/-- `extract_and_record` only ever appends to the event log and never
decreases the two totals. -/
theorem extract_and_record_mono (time text : String) (s : Summary) :
    (∃ tail, (B_m.extract_and_record time text s).events = s.events ++ tail) ∧
    s.berries_total ≤ (B_m.extract_and_record time text s).berries_total ∧
    s.crystals_total ≤ (B_m.extract_and_record time text s).crystals_total := by
  refine ⟨?_, ?_, ?_⟩
  · obtain ⟨lb, lc, lw, he, -⟩ := extract_and_record_shape time text s
    exact ⟨lb ++ lc ++ lw, he⟩
  · unfold B_m.extract_and_record
    cases hb : RE_BERRIES.search text.data <;>
      cases hc : RE_CRYSTALS.search text.data <;>
        cases hw : RE_WAIFU.search text.data <;> simp
  · unfold B_m.extract_and_record
    cases hb : RE_BERRIES.search text.data <;>
      cases hc : RE_CRYSTALS.search text.data <;>
        cases hw : RE_WAIFU.search text.data <;> simp

/-- Folding arrivals is compositional. -/
theorem runTexts_append (a b : List (String × String)) (s : Summary) :
    B_m.runTexts (a ++ b) s = B_m.runTexts b (B_m.runTexts a s) := by
  simp [B_m.runTexts, List.foldl_append]

/-- The aggregation invariant holds after any run of arrivals. -/
theorem runTexts_inv : ∀ (items : List (String × String)) (s : Summary),
    s.berries_total = sumBerries s.events →
    s.crystals_total = sumCrystals s.events →
    s.waifus.length = countWaifus s.events →
    (B_m.runTexts items s).berries_total = sumBerries (B_m.runTexts items s).events ∧
    (B_m.runTexts items s).crystals_total = sumCrystals (B_m.runTexts items s).events ∧
    (B_m.runTexts items s).waifus.length = countWaifus (B_m.runTexts items s).events := by
  intro items
  induction items with
  | nil =>
    intro s h1 h2 h3
    exact ⟨h1, h2, h3⟩
  | cons it rest ih =>
    intro s h1 h2 h3
    have h := extract_and_record_inv it.1 it.2 s h1 h2 h3
    exact ih (B_m.extract_and_record it.1 it.2 s) h.1 h.2.1 h.2.2

/-- Any run of arrivals only appends events and never decreases totals. -/
theorem runTexts_mono : ∀ (items : List (String × String)) (s : Summary),
    (∃ tail, (B_m.runTexts items s).events = s.events ++ tail) ∧
    s.berries_total ≤ (B_m.runTexts items s).berries_total ∧
    s.crystals_total ≤ (B_m.runTexts items s).crystals_total := by
  intro items
  induction items with
  | nil =>
    intro s
    exact ⟨⟨[], by simp [B_m.runTexts]⟩, le_refl _, le_refl _⟩
  | cons it rest ih =>
    intro s
    obtain ⟨⟨t1, he1⟩, hb1, hc1⟩ := extract_and_record_mono it.1 it.2 s
    obtain ⟨⟨t2, he2⟩, hb2, hc2⟩ := ih (B_m.extract_and_record it.1 it.2 s)
    refine ⟨⟨t1 ++ t2, ?_⟩, le_trans hb1 hb2, le_trans hc1 hc2⟩
    show (B_m.runTexts rest (B_m.extract_and_record it.1 it.2 s)).events = _
    rw [he2, he1, List.append_assoc]

/-- Claim C3: after any sequence of `extract_and_record` calls from the
initial empty summary, `berries_total` is the sum of the recorded berries
amounts, `crystals_total` the sum of the crystals amounts, the waifu list
is as long as the number of waifu events; and extending the sequence only
appends to the event log (arrival order) and never decreases either
total. -/
theorem C3_aggregation_correct (items : List (String × String)) :
    (B_m.runTexts items initialSummary).berries_total
      = sumBerries (B_m.runTexts items initialSummary).events ∧
    (B_m.runTexts items initialSummary).crystals_total
      = sumCrystals (B_m.runTexts items initialSummary).events ∧
    (B_m.runTexts items initialSummary).waifus.length
      = countWaifus (B_m.runTexts items initialSummary).events ∧
    ∀ more : List (String × String), ∃ tail : List Event,
      (B_m.runTexts (items ++ more) initialSummary).events
        = (B_m.runTexts items initialSummary).events ++ tail ∧
      (B_m.runTexts items initialSummary).berries_total
        ≤ (B_m.runTexts (items ++ more) initialSummary).berries_total ∧
      (B_m.runTexts items initialSummary).crystals_total
        ≤ (B_m.runTexts (items ++ more) initialSummary).crystals_total := by
  have hinv := runTexts_inv items initialSummary rfl rfl rfl
  refine ⟨hinv.1, hinv.2.1, hinv.2.2, ?_⟩
  intro more
  rw [runTexts_append]
  obtain ⟨⟨tail, he⟩, hbm, hcm⟩ := runTexts_mono more (B_m.runTexts items initialSummary)
  exact ⟨tail, he, hbm, hcm⟩

/-- Claim C4: a text in which none of the three patterns matches produces
no events and leaves the summary completely unchanged; and the extractor
can never raise: the only fallible steps are the `int()` conversions, and
every captured group fed to `int()` is a non-empty all-digit string. -/
theorem C4_no_match_no_change (time text : String) (s : Summary) :
    (RE_BERRIES.search text.data = none → RE_CRYSTALS.search text.data = none →
      RE_WAIFU.search text.data = none → B_m.extract_and_record time text s = s) ∧
    (∀ g, RE_BERRIES.search text.data = some g → g ≠ [] ∧ g.all Char.isDigit = true) ∧
    (∀ g, RE_CRYSTALS.search text.data = some g → g ≠ [] ∧ g.all Char.isDigit = true) := by
  refine ⟨?_, ?_, ?_⟩
  · intro hb hc hw
    unfold B_m.extract_and_record
    rw [hb, hc, hw]
  · intro g hg
    exact reSearch_digits berriesAt berriesAt_digits text.data g hg
  · intro g hg
    exact reSearch_digits crystalsAt crystalsAt_digits text.data g hg

theorem C4_no_match_no_change_witness :
    B_m.extract_and_record "t" "hello" initialSummary = initialSummary ∧
    ("42".data ≠ [] ∧ "42".data.all Char.isDigit = true) :=
  ⟨(C4_no_match_no_change "t" "hello" initialSummary).1 (by decide) (by decide) (by decide),
   (C4_no_match_no_change "t" "You gained 42 Berries" initialSummary).2.1
     "42".data (by decide)⟩

/-- Claim C5: `"You gained 42 Berries"` yields exactly one event — a
berries gain of 42 — and nothing else changes; `"You obtained Sakura
Waifu"` yields exactly one event — the waifu `"Sakura Waifu"`, also
appended to the waifu list — and nothing else changes; a text matching
none of the patterns yields no events. -/
theorem C5_scenarios (time : String) (s : Summary) :
    B_m.extract_and_record time "You gained 42 Berries" s =
      { s with
        berries_total := s.berries_total + 42
        events := s.events ++ [Event.berries time 42 "You gained 42 Berries"] } ∧
    B_m.extract_and_record time "You obtained Sakura Waifu" s =
      { s with
        waifus := s.waifus ++ [⟨time, "Sakura Waifu", "You obtained Sakura Waifu"⟩]
        events := s.events ++ [Event.waifu time "Sakura Waifu" "You obtained Sakura Waifu"] } ∧
    (∀ t : String, RE_BERRIES.search t.data = none → RE_CRYSTALS.search t.data = none →
      RE_WAIFU.search t.data = none →
      (B_m.extract_and_record time t s).events = s.events) := by
  refine ⟨rfl, rfl, ?_⟩
  intro t hb hc hw
  unfold B_m.extract_and_record
  rw [hb, hc, hw]

theorem C5_scenarios_witness :
    B_m.extract_and_record "t" "You gained 42 Berries" initialSummary =
      { initialSummary with
        berries_total := initialSummary.berries_total + 42
        events := initialSummary.events ++
          [Event.berries "t" 42 "You gained 42 Berries"] } ∧
    (B_m.extract_and_record "t" "hello world" initialSummary).events
      = initialSummary.events :=
  ⟨(C5_scenarios "t" initialSummary).1,
   (C5_scenarios "t" initialSummary).2.2 "hello world" (by decide) (by decide) (by decide)⟩

/-- Claim C9: the extractors of the two files are extensionally equal: for
every wall-clock string, input text and starting summary they produce the
same summary.  (The two files declare character-for-character identical
patterns and extractor bodies; they differ only in one logger message.) -/
theorem C9_extractors_agree (time text : String) (s : Summary) :
    B_m.extract_and_record time text s = B_m2.extract_and_record time text s := rfl

/-- Claim C10: a single extractor call appends at most one berries event,
at most one crystals event and at most one waifu event (first match per
category only), and whenever several are produced from the same text they
appear in the log in the fixed order berries, crystals, waifu. -/
theorem C10_per_category_order (time text : String) (s : Summary) :
    ∃ lb lc lw : List Event,
      (B_m.extract_and_record time text s).events = s.events ++ (lb ++ lc ++ lw) ∧
      lb.length ≤ 1 ∧ lc.length ≤ 1 ∧ lw.length ≤ 1 ∧
      (∀ e ∈ lb, isBerriesEvent e = true) ∧
      (∀ e ∈ lc, isCrystalsEvent e = true) ∧
      (∀ e ∈ lw, isWaifuEvent e = true) :=
  extract_and_record_shape time text s

